import Mathlib

/-!
# Verification of the facts-video generation pipeline

Shallow embedding, in Lean 4, of the JavaScript sources of the
`Automate-Linkedin` repository (files `frame-based-solution.js` and
`generate-video.js`), together with proofs settling the frozen claims about
the natural-language specification of that code.

Modelling conventions:

* JavaScript strings are Lean `String`s (a `String` wraps a `List Char`);
  character-level JS operations (`split`, `trim`, `toUpperCase`, ...) are
  embedded as explicit Lean functions on the underlying character list,
  restricted to the ASCII behaviour the pipeline exercises.
* External subprocess/filesystem calls (`execSync` of ffmpeg / ImageMagick /
  espeak, `fs-extra` operations) are modelled by explicit environment records
  that say which call succeeds and what file state it leaves behind; code
  that can throw is embedded in `Except JsError`.
* `for` loops with an index are embedded as structural recursions carrying
  the index; `Array.prototype.map((x, i) => ...)` likewise.
-/

namespace VideoPipeline

/-- A JavaScript exception value (we only track enough structure to

distinguish a `ReferenceError` from an ordinary thrown `Error`). -/
inductive JsError where
  | error (msg : String)
  | referenceError (ident : String)
  deriving DecidableEq, Repr

/-! ## JS string primitives (ASCII model) -/

/-- The whitespace characters stripped by `String.prototype.trim` that can

actually occur in this pipeline (ASCII whitespace). -/
def jsWhitespace (c : Char) : Bool :=
  c = ' ' || c = '\t' || c = '\n' || c = '\r'

/-- `s.trim()`: drop whitespace from both ends. -/
def jsTrim (s : String) : String :=
  ⟨((s.data.dropWhile jsWhitespace).reverse.dropWhile jsWhitespace).reverse⟩

/-- `str.split(sep)` for a single-character separator, on the underlying

character list.  Mirrors JS semantics: always at least one piece, empty
pieces between consecutive separators. -/
def splitCharList (sep : Char) : List Char → List (List Char)
  | [] => [[]]
  | c :: cs =>
    if c = sep then [] :: splitCharList sep cs
    else
      match splitCharList sep cs with
      | [] => [[c]]
      | t :: ts => (c :: t) :: ts

/-- `s.split(sep)` returning Lean strings. -/
def jsSplit (s : String) (sep : Char) : List String :=
  (splitCharList sep s.data).map (fun cs => ⟨cs⟩)

/-- `s.toLowerCase()` (ASCII model). -/
def jsToLower (s : String) : String := ⟨s.data.map Char.toLower⟩

/-- `category.charAt(0).toUpperCase() + category.slice(1)` (ASCII model;

`"".charAt(0)` is `""`, so the empty string maps to itself). -/
def jsCapitalize (s : String) : String :=
  match s.data with
  | [] => ""
  | c :: cs => ⟨c.toUpper :: cs⟩

/-- `String(n).padStart(2, '0')` for a natural number. -/
def pad2 (n : Nat) : String :=
  let s := toString n
  if s.length ≥ 2 then s else "0" ++ s

/-- `String(n).padStart(4, '0')` for a natural number. -/
def pad4 (n : Nat) : String :=
  let s := toString n
  if s.length ≥ 4 then s else
    if s.length = 3 then "0" ++ s else
      if s.length = 2 then "00" ++ s else "000" ++ s

/-! ## The fact inputs

`createFrameBasedVideo(facts, category, outputPath)` accepts either plain
strings or objects carrying a `text` field; `facts` itself may be
`null`/`undefined` (hence the `facts && facts.length > 0` guard), which we
model with `Option (List JFact)`. -/

/-- One element of the `facts` argument: a plain string or an object whose

`text` property may be absent. -/
inductive JFact where
  | str (s : String)
  | obj (text : Option String)
  deriving DecidableEq, Repr

/-- `typeof fact === 'string' ? fact : (fact.text || 'Interesting fact')` —

note `||` treats the empty string as falsy. -/
def jsFactText : JFact → String
  | .str s => s
  | .obj none => "Interesting fact"
  | .obj (some t) => if t = "" then "Interesting fact" else t

/-- The built-in fallback facts substituted when the incoming list is

absent or empty (`frame-based-solution.js`, the five hard-coded objects). -/
def defaultFacts : List JFact :=
  [ .obj (some "The human brain can process images in as little as 13 milliseconds."),
    .obj (some "The Earth is not a perfect sphere; it's an oblate spheroid, flattened at the poles."),
    .obj (some "There are more possible iterations of a game of chess than there are atoms in the universe."),
    .obj (some "Honey never spoils. Archaeologists have found pots of honey from ancient Egyptian tombs that are over 3,000 years old."),
    .obj (some "The longest recorded flight of a chicken is 13 seconds.") ]

/-- `const validFacts = (facts && facts.length > 0) ? facts : [ ...five

defaults... ];` -/
def validFactsOpt : Option (List JFact) → List JFact
  | none => defaultFacts
  | some l => if l.length > 0 then l else defaultFacts

/-- `` `${validFacts.length} Amazing ${category.charAt(0).toUpperCase() +

category.slice(1)} Facts` `` -/
def mkTitle (validFacts : List JFact) (category : String) : String :=
  toString validFacts.length ++ " Amazing " ++ jsCapitalize category ++ " Facts"

/-! ## Segment planning (basic generator, first variant)

The first `createFrameBasedVideo` builds `frameFiles = [titleFramePath,
fact frames...]` and then writes an ffmpeg concat list assigning
`duration = index === 0 ? titleDuration : factDuration`. -/

def titleDuration : Nat := 3

def factDuration : Nat := 5

/-- One entry of the ffmpeg concat list: the text rendered on the frame,

the frame's path, and the duration assigned to it. -/
structure Segment1 where
  text : String
  framePath : String
  duration : Nat
  deriving DecidableEq, Repr

/-- The per-fact frame files created by

`for (let i = 0; i < validFacts.length; i++) { ... 'Fact i+1: text' ...
`${String(i + 1).padStart(2, '0')}_fact.png` }` (pairs of rendered text and
path, in loop order). -/
def factFrameFiles : Nat → List JFact → String → List (String × String)
  | _, [], _ => []
  | i, f :: fs, framesDir =>
    ("Fact " ++ toString (i + 1) ++ ": " ++ jsFactText f,
      framesDir ++ "/" ++ pad2 (i + 1) ++ "_fact.png")
      :: factFrameFiles (i + 1) fs framesDir

/-- `frameFiles = [titleFramePath]` followed by the fact frames. -/
def frameFileList (validFacts : List JFact) (category framesDir : String) :
    List (String × String) :=
  (mkTitle validFacts category, framesDir ++ "/00_title.png")
    :: factFrameFiles 0 validFacts framesDir

/-- `frameFiles.forEach((framePath, index) => { const duration = index === 0

? titleDuration : factDuration; ... })` -/
def attachDurations : Nat → List (String × String) → List Segment1
  | _, [] => []
  | i, (t, p) :: rest =>
    { text := t, framePath := p,
      duration := if i = 0 then titleDuration else factDuration }
      :: attachDurations (i + 1) rest

/-- The planned segment list of the basic generator (the concat list also

repeats the last frame once more without a duration, an ffmpeg requirement
that adds no planned time). -/
def segmentList (validFacts : List JFact) (category framesDir : String) :
    List Segment1 :=
  attachDurations 0 (frameFileList validFacts category framesDir)

/-! ## Sidecar description file

``const descriptionText = `${title}\n\n${validFacts.map((fact, index) => {
... return `Fact ${index + 1}: ${factText}`; }).join('\n\n')}\n\nLike and
subscribe for more amazing facts!`;`` (identical in both generator
variants). -/

/-- The mapped `"Fact {index+1}: {factText}"` lines, in input order. -/
def descFactLines : Nat → List JFact → List String
  | _, [] => []
  | i, f :: fs =>
    ("Fact " ++ toString (i + 1) ++ ": " ++ jsFactText f) :: descFactLines (i + 1) fs

/-- The full text written to `${outputPath}.description.txt`. -/
def descriptionText (validFacts : List JFact) (category : String) : String :=
  mkTitle validFacts category ++ "\n\n"
    ++ String.intercalate "\n\n" (descFactLines 0 validFacts)
    ++ "\n\nLike and subscribe for more amazing facts!"

/-! ## Frame sequencing (second generator variant)

`for (let i = 0; i < 90; i++)` title frames, then
`for (let frameIndex = 0; frameIndex < 150; frameIndex++)` per fact. -/

/-- One planned frame of the global sequence: its file path and the text

rendered on it. -/
structure Frame2 where
  path : String
  text : String
  deriving DecidableEq, Repr

/-- `title_${String(i).padStart(4, '0')}.png` for `i < 90` (3 seconds at 30

fps). -/
def titleFrames (title framesDir : String) : List Frame2 :=
  (List.range 90).map fun i =>
    { path := framesDir ++ "/title_" ++ pad4 i ++ ".png", text := title }

/-- The fact frames: for each fact (outer loop index `fi`) 150 frames

`fact_${fi}_${String(frameIndex).padStart(4, '0')}.png` (5 seconds at 30
fps), pushed into one flat list. -/
def factFrames : Nat → List JFact → String → List Frame2
  | _, [], _ => []
  | fi, f :: fs, framesDir =>
    ((List.range 150).map fun j =>
      { path := framesDir ++ "/fact_" ++ toString fi ++ "_" ++ pad4 j ++ ".png",
        text := "Fact " ++ toString (fi + 1) ++ ": " ++ jsFactText f })
      ++ factFrames (fi + 1) fs framesDir

/-- `const allFrames = [...titleFrames, ...factFrames];` -/
def allFrames (validFacts : List JFact) (category framesDir : String) : List Frame2 :=
  titleFrames (mkTitle validFacts category) framesDir ++ factFrames 0 validFacts framesDir

/-! ## Word wrapping

`wrapText(text, maxLength)` (enhanced generator) and the inline
`maxCharsPerLine = 50` loop inside the enhanced `createTextFrame` implement
the same greedy algorithm:

```
const words = text.split(' ');
const lines = []; let currentLine = '';
words.forEach(word => {
  if ((currentLine + word).length > maxLength && currentLine.length > 0) {
    lines.push(currentLine.trim()); currentLine = word + ' ';
  } else { currentLine += word + ' '; }
});
if (currentLine.trim()) lines.push(currentLine.trim());
return lines.join('\n');      -- the two-character sequence backslash n
```
-/

/-- One `forEach` step of the wrap loop, acting on `(lines, currentLine)`. -/
def wrapStep (maxLength : Nat) (st : List String × String) (word : String) :
    List String × String :=
  let (lines, currentLine) := st
  if (currentLine ++ word).length > maxLength ∧ currentLine.length > 0 then
    (lines ++ [jsTrim currentLine], word ++ " ")
  else
    (lines, currentLine ++ word ++ " ")

/-- The list of wrapped lines produced from a word list. -/
def wrapLines (words : List String) (maxLength : Nat) : List String :=
  let st := words.foldl (wrapStep maxLength) ([], "")
  if jsTrim st.2 ≠ "" then st.1 ++ [jsTrim st.2] else st.1

/-- `wrapText(text, maxLength)`; the lines are joined with the literal

two-character sequence `\n` (a backslash and an `n`, for ImageMagick), not
a newline. -/
def wrapText (text : String) (maxLength : Nat) : String :=
  String.intercalate "\\n" (wrapLines (jsSplit text ' ') maxLength)

/-- The non-empty space-separated pieces of a character list — the "words

contained in" a rendered line, used to state the wrap round-trip
property. -/
def tokensL (cs : List Char) : List (List Char) :=
  (splitCharList ' ' cs).filter (· ≠ [])

/-- The non-empty space-separated words of a line (String version of

`tokensL`). -/
def lineTokens (s : String) : List String :=
  (jsSplit s ' ').filter (· ≠ "")

/-! ## Frame renderers (`createTextFrame`)

Both variants shell out to ImageMagick `convert`.  We record each attempted
`convert` invocation as a `ConvertCmd` capturing the parameters that the
claims talk about (background colour, annotated text, ...). -/

/-- The parameters of one attempted `convert` command.  The bare fallback

command `convert -size 1280x720 xc:darkblue "out"` carries no text, colour,
point size or font. -/
structure ConvertCmd where
  bg : String
  textColor : Option String
  pointsize : Option Nat
  text : Option String
  font : Option String
  deriving DecidableEq, Repr

/-- `text.replace(/"/g, '\\"')` (basic renderer's escaping). -/
def escQuote (s : String) : String :=
  ⟨s.data.flatMap fun c => if c = '"' then ['\\', '"'] else [c]⟩

/-- The enhanced renderer's `cleanText`: escape `"`, `'`, `$` and the

backtick with a backslash. -/
def cleanFrameText (s : String) : String :=
  ⟨s.data.flatMap fun c =>
    if c = '"' || c = '\'' || c = '$' || c = Char.ofNat 96 then ['\\', c] else [c]⟩

/-- Environment for the basic `createTextFrame(text, outputPath)`: does the

annotated `convert` succeed, does the plain fallback `convert` succeed? -/
structure Frame1Env where
  convertOk : Bool
  fallbackOk : Bool
  deriving DecidableEq, Repr

/-- Basic `createTextFrame` (first variant): try one simple annotate

command, on failure fall back to a plain darkblue frame; returns the
success boolean and the attempted commands in order.  Every statement of
the source sits under `try/catch`, so the function never throws. -/
def createTextFrame1 (text : String) (env : Frame1Env) : Bool × List ConvertCmd :=
  let mainCmd : ConvertCmd :=
    { bg := "darkblue", textColor := some "white", pointsize := some 40,
      text := some (escQuote text), font := none }
  let fallbackCmd : ConvertCmd :=
    { bg := "darkblue", textColor := none, pointsize := none, text := none,
      font := none }
  if env.convertOk then (true, [mainCmd])
  else if env.fallbackOk then (true, [mainCmd, fallbackCmd])
  else (false, [mainCmd, fallbackCmd])

/-- Environment for the enhanced `createTextFrame(text, outputPath,

frameType)`: `ensureDir` outcome, main `convert` outcome, the file state
found by `pathExists`/`stat` after a successful main convert
(`writtenSize = none` means no file), fallback `convert` outcome and
whether the fallback file then exists. -/
structure Frame2Env where
  ensureDirOk : Bool
  convertOk : Bool
  writtenSize : Option Nat
  fallbackOk : Bool
  fallbackWritten : Bool
  deriving DecidableEq, Repr

/-- Enhanced `createTextFrame` (second variant).  Mirrors the source: pick

colours by `frameType` (`title` → darkblue/yellow/48, otherwise
navy/white/36), escape and word-wrap the text at 50 characters, run the
annotated `convert` with `-font Arial`, verify the written file exists and
exceeds 1000 bytes; on a thrown `ensureDir`/`convert` the catch block runs
one plain darkblue fallback `convert` and checks mere existence.  Returns
the success boolean and the attempted commands; every source path is
guarded by `catch`, so the embedding is a total function. -/
def createTextFrame2 (text frameType : String) (env : Frame2Env) :
    Bool × List ConvertCmd :=
  let bgColor := if frameType = "title" then "darkblue" else "navy"
  let textColor := if frameType = "title" then "yellow" else "white"
  let fontSize : Nat := if frameType = "title" then 48 else 36
  let wrappedText := String.intercalate "\\n"
    (wrapLines (jsSplit (cleanFrameText text) ' ') 50)
  let mainCmd : ConvertCmd :=
    { bg := bgColor, textColor := some textColor, pointsize := some fontSize,
      text := some wrappedText, font := some "Arial" }
  let fallbackCmd : ConvertCmd :=
    { bg := "darkblue", textColor := none, pointsize := none, text := none,
      font := none }
  let runFallback (attempted : List ConvertCmd) : Bool × List ConvertCmd :=
    if env.fallbackOk then
      (env.fallbackWritten, attempted ++ [fallbackCmd])
    else (false, attempted ++ [fallbackCmd])
  if env.ensureDirOk then
    if env.convertOk then
      match env.writtenSize with
      | some sz => (decide (sz > 1000), [mainCmd])
      | none => (false, [mainCmd])
    else runFallback [mainCmd]
  else runFallback []

/-- The file state at the output path after `createTextFrame2` finishes

(modelling the filesystem: a main `convert` that throws writes nothing; a
fallback `convert` that succeeds leaves a file exactly when
`fallbackWritten`). -/
def frameFileWritten (env : Frame2Env) : Bool :=
  if env.ensureDirOk && env.convertOk then env.writtenSize.isSome
  else env.fallbackOk && env.fallbackWritten

/-! ## Speech synthesis (`generateSpeech` / `generateVoiceNarration`,

enhanced generator) -/

/-- Characters kept by `text.replace(/[^\w\s.,!?-]/g, '')` (ASCII model of

`\w` and `\s`). -/
def speechKeep (c : Char) : Bool :=
  c.isAlphanum || c = '_' || jsWhitespace c || c = '.' || c = ',' || c = '!'
    || c = '?' || c = '-'

/-- The `cleanText` actually handed to espeak:

`text.replace(/[^\w\s.,!?-]/g, '').substring(0, 500)`. -/
def jsCleanSpeech (s : String) : String := ⟨(s.data.filter speechKeep).take 500⟩

/-- What kind of audio clip ended up on disk. -/
inductive ClipKind where
  | speech
  | silent
  deriving DecidableEq, Repr

/-- The audio file written by one `generateSpeech` call: its kind, its

duration in seconds where the command fixes one (`-t 5` for the silent
fallback; espeak's own duration is unknown), its container format, and the
cleaned text spoken (none for silence). -/
structure AudioWrite where
  kind : ClipKind
  durationSeconds : Option Nat
  format : String
  spokenText : Option String
  deriving DecidableEq, Repr

/-- Environment for one `generateSpeech` call: does espeak succeed, does

the resulting wav exist, do the ffmpeg mp3 conversion and the
`remove`/`move` shuffle succeed, does the silent-clip ffmpeg in the catch
block succeed. -/
structure SpeechEnv where
  espeakOk : Bool
  wavExists : Bool
  convertOk : Bool
  silentOk : Bool
  deriving DecidableEq, Repr

/-- `generateSpeech(text, outputPath)`: espeak the cleaned text to a wav,

optionally convert to mp3 (conversion failure is caught and keeps the
wav); on an espeak failure the catch block writes a silent clip with
`ffmpeg -f lavfi -i anullsrc=r=44100:cl=stereo -t 5` — a fixed five-second
duration.  If that silent ffmpeg itself throws, the catch block has no
inner guard, so `generateSpeech` throws. -/
def generateSpeech (text : String) (env : SpeechEnv) : Except JsError AudioWrite :=
  if env.espeakOk then
    if env.wavExists then
      if env.convertOk then
        .ok { kind := .speech, durationSeconds := none, format := "mp3",
              spokenText := some (jsCleanSpeech text) }
      else
        .ok { kind := .speech, durationSeconds := none, format := "wav",
              spokenText := some (jsCleanSpeech text) }
    else
      .ok { kind := .speech, durationSeconds := none, format := "wav",
            spokenText := some (jsCleanSpeech text) }
  else
    if env.silentOk then
      .ok { kind := .silent, durationSeconds := some 5, format := "wav",
            spokenText := none }
    else .error (.error "silent clip creation failed")

/-- An enhanced fact as produced by `generateEnhancedContent`. -/
structure EnhancedFact where
  hook : String
  fact : String
  wow : String
  deriving DecidableEq, Repr

/-- The slice of `enhancedContent` that `generateVoiceNarration` reads. -/
structure NarrationContent where
  title : String
  facts : List EnhancedFact
  deriving DecidableEq, Repr

/-- One element pushed to `audioFiles`: the clip path, the planned

`duration` recorded with it (3 for the title, 6 for each fact), and what
`generateSpeech` actually wrote there. -/
structure AudioEntry where
  file : String
  plannedDuration : Nat
  write : AudioWrite
  deriving DecidableEq, Repr

/-- The fact-narration loop: `for (let i = 0; ...)`, each iteration calling

`generateSpeech` on `"{hook} {fact} {wow_factor}"` and pushing
`{ file, duration: 6 }`.  The loop index also selects the per-call
environment. -/
def narrateFacts (audioDir : String) (envs : Nat → SpeechEnv) :
    Nat → List EnhancedFact → Except JsError (List AudioEntry)
  | _, [] => .ok []
  | i, f :: fs => do
    let w ← generateSpeech (f.hook ++ " " ++ f.fact ++ " " ++ f.wow) (envs (i + 1))
    let rest ← narrateFacts audioDir envs (i + 1) fs
    return { file := audioDir ++ "/fact_" ++ toString i ++ ".wav",
             plannedDuration := 6, write := w } :: rest

/-- `generateVoiceNarration(content, audioDir)`: title clip (planned

duration 3) then one clip per fact (planned duration 6); any escaped
exception is caught and turns the whole narration into `[]` (silent
video). -/
def generateVoiceNarration (content : NarrationContent) (audioDir : String)
    (envs : Nat → SpeechEnv) : List AudioEntry :=
  let run : Except JsError (List AudioEntry) := do
    let tw ← generateSpeech
      ("Welcome to our amazing facts video: " ++ content.title) (envs 0)
    let rest ← narrateFacts audioDir envs 0 content.facts
    return { file := audioDir ++ "/title.wav", plannedDuration := 3,
             write := tw } :: rest
  match run with
  | .ok entries => entries
  | .error _ => []

/-! ## YouTube upload (`uploadToYouTube`, first `generate-video.js`

variant, lines 523–664) -/

/-- `videoPath.split('.').pop().toLowerCase()`. -/
def jsExtension (p : String) : String :=
  jsToLower ((jsSplit p '.').getLast?.getD "")

/-- Environment for `uploadToYouTube`.  `fileSize` and

`isDegradedPlaceholder` describe the artifact sitting at `videoPath`; the
source never inspects either (it stats nothing and has no notion of the
degraded placeholder), they are carried here exactly so that this
independence can be stated. -/
structure UploadEnv where
  authOk : Bool
  fileExists : Bool
  fileSize : Nat
  isDegradedPlaceholder : Bool
  readFileOk : Bool
  channelOk : Bool
  insertOk : Bool
  insertId : String
  recordWriteOk : Bool
  enhanceOk : Bool
  simplifiedOk : Bool
  simplifiedId : String
  now : Nat
  deriving DecidableEq, Repr

/-- The string result of `uploadToYouTube` together with how many

`youtube.videos.insert` calls were issued. -/
structure UploadOutcome where
  ret : String
  uploadAttempts : Nat
  deriving DecidableEq, Repr

/-- The string-tagged pseudo-error codes `ERROR_<REASON>_${Date.now()}`. -/
def errCode (reason : String) (now : Nat) : String :=
  "ERROR_" ++ reason ++ "_" ++ toString now

/-- `uploadToYouTube(videoPath, title, description, tags, categoryId)`.

Control flow of the source: authenticate (failure → outer catch →
`ERROR_SETUP_FAILED`); reject a missing file (`ERROR_FILE_NOT_FOUND`,
no upload attempted); reject a non-`mp4`/`mov`/`avi` extension
(`ERROR_TEXT_FILE` after reading the text file, else
`ERROR_INVALID_VIDEO`); otherwise enter the inner `try`: list the channel,
insert the video, write a record file and call `enhanceYouTubeUpload` — a
throw from ANY of these lands in the inner catch, which attempts one
simplified insert (so a record-write failure after a successful upload
triggers a second upload), returning its id or `ERROR_UPLOAD_FAILED`.
The title, description and tags do not influence which path is taken. -/
def uploadToYouTube (videoPath : String) (env : UploadEnv) : UploadOutcome :=
  if ¬env.authOk then { ret := errCode "SETUP_FAILED" env.now, uploadAttempts := 0 }
  else if ¬env.fileExists then
    { ret := errCode "FILE_NOT_FOUND" env.now, uploadAttempts := 0 }
  else
    let ext := jsExtension videoPath
    if ext ≠ "mp4" ∧ ext ≠ "mov" ∧ ext ≠ "avi" then
      if ext = "txt" then
        if env.readFileOk then
          { ret := errCode "TEXT_FILE" env.now, uploadAttempts := 0 }
        else { ret := errCode "SETUP_FAILED" env.now, uploadAttempts := 0 }
      else { ret := errCode "INVALID_VIDEO" env.now, uploadAttempts := 0 }
    else
      let simplified (attemptsSoFar : Nat) : UploadOutcome :=
        if env.simplifiedOk then
          { ret := env.simplifiedId, uploadAttempts := attemptsSoFar + 1 }
        else
          { ret := errCode "UPLOAD_FAILED" env.now,
            uploadAttempts := attemptsSoFar + 1 }
      if ¬env.channelOk then simplified 0
      else if ¬env.insertOk then simplified 1
      else if ¬env.recordWriteOk then simplified 1
      else if ¬env.enhanceOk then simplified 1
      else { ret := env.insertId, uploadAttempts := 1 }

/-! ## The facts database (`markFactsAsUsed`, `generate-video.js`) -/

/-- One persisted fact entry: `{ text, category, verificationScore,

dateAdded, used }`, gaining a `usedDate` once marked. -/
structure DbFact where
  text : String
  category : String
  verificationScore : Nat
  dateAdded : String
  used : Bool
  usedDate : Option String
  deriving DecidableEq, Repr

/-- The fields of an incoming fact that `markFactsAsUsed` reads

(`fact.category`, `fact.text`, `fact.dateAdded`). -/
structure UsedFact where
  text : String
  category : String
  dateAdded : String
  deriving DecidableEq, Repr

/-- `database.categories`: a JSON object mapping category names to entry

lists, modelled as an association list (first binding wins, as for JS
object keys). -/
abbrev FactsDb := List (String × List DbFact)

/-- `database.categories[category]` — `none` models JS `undefined`. -/
def dbLookup : FactsDb → String → Option (List DbFact)
  | [], _ => none
  | (k, es) :: rest, key => if k = key then some es else dbLookup rest key

/-- In-place update `database.categories[category] = l` of an existing

binding (the source only ever reaches this with an existing category). -/
def dbSet : FactsDb → String → List DbFact → FactsDb
  | [], _, _ => []
  | (k, es) :: rest, key, l =>
    if k = key then (k, l) :: rest else (k, es) :: dbSet rest key l

/-- `findIndex(f => f.text === fact.text && f.dateAdded === fact.dateAdded)`

followed by `...[factIndex].used = true; ...[factIndex].usedDate = new
Date().toISOString();` — mutates the FIRST matching entry only; with no
match (`factIndex === -1`) the list is unchanged. -/
def markFirst (t d now : String) : List DbFact → List DbFact
  | [] => []
  | e :: es =>
    if e.text = t ∧ e.dateAdded = d then
      { e with used := true, usedDate := some now } :: es
    else e :: markFirst t d now es

/-- One iteration of `facts.forEach(fact => ...)`.  When `fact.category` is

not a key of the database, `database.categories[category]` is `undefined`
and `.findIndex` throws a `TypeError` (modelled as `none`), which escapes
the `forEach`. -/
def markStep (now : String) (db : FactsDb) (f : UsedFact) : Option FactsDb :=
  match dbLookup db f.category with
  | none => none
  | some es => some (dbSet db f.category (markFirst f.text f.dateAdded now es))

/-- `markFactsAsUsed(facts)`: read the database, mutate it in memory

fact-by-fact, then write it back with `fs.writeJson`.  A thrown
`TypeError` (missing category) is swallowed by the surrounding
`try/catch`, so the file is never rewritten and the persisted database —
the value this function returns — stays exactly as it was, dropping even
the mutations made for earlier facts. -/
def markFactsAsUsed (facts : List UsedFact) (db : FactsDb) (now : String) :
    FactsDb :=
  match facts.foldlM (markStep now) db with
  | some db2 => db2
  | none => db

/-! ## Video assembly (`createFrameBasedVideo`, second variant, lines

194–404 of `frame-based-solution.js`) -/

/-- The result object `{ videoPath, descriptionPath }`. -/
structure VideoResult where
  videoPath : String
  descriptionPath : String
  deriving DecidableEq, Repr

/-- Environment for one assembly run: whether the `fs-extra` operations

succeed, the outcomes of the strategy-1 image-sequence encode and of the
strategy-2 pieces (title clip, per-fact clips, concat), and the file state
at `outputPath` that the validation step then observes (`none` = missing).
Frame rendering (`createTextFrame`) never throws and its boolean result is
ignored by the caller, so it needs no field here. -/
structure AsmEnv where
  fsOk : Bool
  seqEncodeOk : Bool
  titleClipOk : Bool
  factClipsOk : Bool
  concatOk : Bool
  outputSize : Option Nat
  deriving DecidableEq, Repr

/-- The `catch (error)` block of `createFrameBasedVideo` ("emergency

fallback").  Its first statement is

`const emergencyFrameDir = path.join(outputDir, 'emergency_frame');`

but `outputDir` was declared with `const` INSIDE the `try` block
(`const outputDir = path.dirname(outputPath);`), so it is not in scope in
the catch block: evaluating it throws
`ReferenceError: outputDir is not defined` before anything else runs (the
block does re-declare `validFacts` locally, but not `outputDir`).  That
`ReferenceError` lands in the block's inner `catch (emergencyError)`,
which rethrows the ORIGINAL error.  No placeholder video, description file
or result object is ever produced. -/
def emergencyFallback (originalError : JsError) : Except JsError VideoResult :=
  match (.error (.referenceError "outputDir") : Except JsError Unit) with
  | .ok _ => .error originalError
  | .error _ => .error originalError

/-- The two encode strategies: the strategy-1 image-sequence `ffmpeg` runs

inside an inner `try`; its failure is caught and strategy 2 (title clip,
per-fact clips, demuxer concat) runs in the inner `catch`, whose own
failures escape to the outer catch. -/
def encodeStrategies (env : AsmEnv) : Except JsError Unit :=
  if env.seqEncodeOk then .ok ()
  else
    if env.titleClipOk then
      if env.factClipsOk then
        if env.concatOk then .ok () else .error (.error "concat failed")
      else .error (.error "fact clip encode failed")
    else .error (.error "title clip encode failed")

/-- `if (!videoExists || (videoStats && videoStats.size < 1000)) { throw

new Error('Output video is missing or too small'); }` -/
def validateOutput (env : AsmEnv) : Except JsError Unit :=
  match env.outputSize with
  | none => .error (.error "Output video is missing or too small")
  | some sz =>
    if sz < 1000 then .error (.error "Output video is missing or too small")
    else .ok ()

/-- The body of the outer `try` of the second `createFrameBasedVideo`:

directories, frames (`createTextFrame` never throws and its result is
ignored), copy to the numbered sequence, encode via the two strategies,
validate the output file, write the description sidecar and the
simple-name copies, and return `{ videoPath, descriptionPath }`. -/
def assembleBody (outputPath : String) (env : AsmEnv) :
    Except JsError VideoResult :=
  if env.fsOk then
    match encodeStrategies env with
    | .error e => .error e
    | .ok _ =>
      match validateOutput env with
      | .error e => .error e
      | .ok _ =>
        .ok { videoPath := outputPath,
              descriptionPath := outputPath ++ ".description.txt" }
  else .error (.error "fs operation failed")

/-- The second `createFrameBasedVideo(facts, category, outputPath)` —

outer `try` body plus the broken emergency-fallback catch block. -/
def createFrameBasedVideo2 (outputPath : String) (env : AsmEnv) :
    Except JsError VideoResult :=
  match assembleBody outputPath env with
  | .ok r => .ok r
  | .error e => emergencyFallback e

/-! # Theorems -/

/-! ## Supporting lemmas -/

theorem validFactsOpt_of_ne_nil {l : List JFact} (h : l ≠ []) :
    validFactsOpt (some l) = l := by
  simp [validFactsOpt, List.length_pos.mpr h]

theorem factFrameFiles_length (l : List JFact) (framesDir : String) :
    ∀ i, (factFrameFiles i l framesDir).length = l.length := by
  induction l with
  | nil => intro i; rfl
  | cons f fs ih => intro i; simp [factFrameFiles, ih]

theorem factFrameFiles_get? (l : List JFact) (framesDir : String) :
    ∀ i j, (factFrameFiles i l framesDir).get? j =
      (l.get? j).map fun f =>
        ("Fact " ++ toString (i + j + 1) ++ ": " ++ jsFactText f,
          framesDir ++ "/" ++ pad2 (i + j + 1) ++ "_fact.png") := by
  induction l with
  | nil => intro i j; cases j <;> rfl
  | cons f fs ih =>
    intro i j
    cases j with
    | zero => rfl
    | succ j =>
      simp only [factFrameFiles, List.get?_cons_succ, List.get?_cons_succ, ih (i + 1) j]
      have : i + 1 + j = i + (j + 1) := by omega
      rw [this]

theorem attachDurations_length (l : List (String × String)) :
    ∀ i, (attachDurations i l).length = l.length := by
  induction l with
  | nil => intro i; rfl
  | cons p rest ih => intro i; cases p; simp [attachDurations, ih]

theorem attachDurations_get? (l : List (String × String)) :
    ∀ i j, (attachDurations i l).get? j =
      (l.get? j).map fun tp =>
        { text := tp.1, framePath := tp.2,
          duration := if i + j = 0 then titleDuration else factDuration : Segment1 } := by
  induction l with
  | nil => intro i j; cases j <;> rfl
  | cons p rest ih =>
    intro i j
    cases p with
    | mk t q =>
      cases j with
      | zero => simp [attachDurations]
      | succ j =>
        simp only [attachDurations, List.get?_cons_succ, ih (i + 1) j]
        have : i + 1 + j = i + (j + 1) := by omega
        have h2 : ¬(i + (j + 1) = 0) := by omega
        cases hl : rest.get? j <;> simp [this, h2]

theorem attachDurations_durations_of_pos (l : List (String × String)) :
    ∀ i, i ≠ 0 →
      (attachDurations i l).map Segment1.duration = List.replicate l.length factDuration := by
  induction l with
  | nil => intro i _; rfl
  | cons p rest ih =>
    intro i hi
    cases p
    simp [attachDurations, hi, List.replicate_succ, ih (i + 1) (by omega)]

theorem segmentList_durations (vf : List JFact) (category framesDir : String) :
    (segmentList vf category framesDir).map Segment1.duration =
      titleDuration :: List.replicate vf.length factDuration := by
  simp [segmentList, frameFileList, attachDurations,
    attachDurations_durations_of_pos _ 1 (by omega), factFrameFiles_length]

theorem descFactLines_length (l : List JFact) :
    ∀ i, (descFactLines i l).length = l.length := by
  induction l with
  | nil => intro i; rfl
  | cons f fs ih => intro i; simp [descFactLines, ih]

theorem descFactLines_get? (l : List JFact) :
    ∀ i j, (descFactLines i l).get? j =
      (l.get? j).map fun f => "Fact " ++ toString (i + j + 1) ++ ": " ++ jsFactText f := by
  induction l with
  | nil => intro i j; cases j <;> rfl
  | cons f fs ih =>
    intro i j
    cases j with
    | zero => rfl
    | succ j =>
      simp only [descFactLines, List.get?_cons_succ, ih (i + 1) j]
      have : i + 1 + j = i + (j + 1) := by omega
      rw [this]

theorem factFrames_length (l : List JFact) (framesDir : String) :
    ∀ i, (factFrames i l framesDir).length = 150 * l.length := by
  induction l with
  | nil => intro i; rfl
  | cons f fs ih =>
    intro i
    simp [factFrames, ih (i + 1)]
    ring

/-! ## C2 — segment planner: N + 1 segments, title first (3 s) then one

5-second segment per fact in input order, total 3 + 5·N seconds -/

/-- C2: for every non-empty fact list and category, the basic generator's

concat-list planning yields exactly `N + 1` entries: the 3-second title
entry first, then one 5-second entry per fact in input order, for a total
planned duration of `3 + 5·N` seconds. -/
theorem c2_segment_planner (facts : List JFact) (category framesDir : String)
    (h : facts ≠ []) :
    (segmentList (validFactsOpt (some facts)) category framesDir).length
        = facts.length + 1 ∧
    (segmentList (validFactsOpt (some facts)) category framesDir).get? 0 =
      some { text := mkTitle facts category,
             framePath := framesDir ++ "/00_title.png", duration := 3 } ∧
    (∀ i f, facts.get? i = some f →
      (segmentList (validFactsOpt (some facts)) category framesDir).get? (i + 1) =
        some { text := "Fact " ++ toString (i + 1) ++ ": " ++ jsFactText f,
               framePath := framesDir ++ "/" ++ pad2 (i + 1) ++ "_fact.png",
               duration := 5 }) ∧
    ((segmentList (validFactsOpt (some facts)) category framesDir).map
        Segment1.duration).sum = 3 + 5 * facts.length := by
  rw [validFactsOpt_of_ne_nil h]
  refine ⟨?_, ?_, ?_, ?_⟩
  · simp [segmentList, attachDurations_length, frameFileList, factFrameFiles_length]
  · simp [segmentList, frameFileList, attachDurations, titleDuration]
  · intro i f hf
    simp only [segmentList, frameFileList, attachDurations_get?,
      List.get?_cons_succ, factFrameFiles_get?, hf]
    simp [factDuration]
  · rw [segmentList_durations]
    simp [titleDuration, factDuration, List.sum_replicate, mul_comm]

/-- Witness for C2 at a concrete two-fact input. -/
theorem c2_segment_planner_witness :
    (segmentList (validFactsOpt (some [JFact.str "a", JFact.str "b"])) "ocean" "frames").length
      = 3 ∧
    ((segmentList (validFactsOpt (some [JFact.str "a", JFact.str "b"])) "ocean" "frames").map
        Segment1.duration).sum = 13 := by
  have h := c2_segment_planner [JFact.str "a", JFact.str "b"] "ocean" "frames"
    (by decide)
  exact ⟨h.1, h.2.2.2⟩

/-! ## C3 — sidecar description: synthesized title then every fact once,

in order, with 1-based `Fact {i}: ` prefixes -/

/-- C3: the sidecar description text is the synthesized title

`"{N} Amazing {Category} Facts"` (category first character upper-cased)
followed by the `"Fact {i}: "`-prefixed fact texts, exactly one line per
input fact, in input order, with 1-based indices. -/
theorem c3_description (facts : List JFact) (category : String) (h : facts ≠ []) :
    validFactsOpt (some facts) = facts ∧
    descriptionText facts category =
      toString facts.length ++ " Amazing " ++ jsCapitalize category ++ " Facts"
        ++ "\n\n" ++ String.intercalate "\n\n" (descFactLines 0 facts)
        ++ "\n\nLike and subscribe for more amazing facts!" ∧
    (descFactLines 0 facts).length = facts.length ∧
    (∀ i f, facts.get? i = some f →
      (descFactLines 0 facts).get? i =
        some ("Fact " ++ toString (i + 1) ++ ": " ++ jsFactText f)) := by
  refine ⟨validFactsOpt_of_ne_nil h, rfl, descFactLines_length facts 0, ?_⟩
  intro i f hf
  rw [descFactLines_get?, hf]
  simp

/-- Witness for C3 at a concrete input. -/
theorem c3_description_witness :
    (descFactLines 0 [JFact.str "Sharks predate trees."]).get? 0 =
      some "Fact 1: Sharks predate trees." := by
  have h := c3_description [JFact.str "Sharks predate trees."] "ocean" (by decide)
  exact h.2.2.2 0 (JFact.str "Sharks predate trees.") rfl

/-! ## C4 — frame sequencer: 90 title frames, 150 frames per fact,

90 + 150·N frames in total -/

/-- C4: the enhanced generator emits exactly 90 title frames (3 s at

30 fps) and 150 frames per fact (5 s at 30 fps), so the global sequence
has `90 + 150·N` frames. -/
theorem c4_frame_counts (vf : List JFact) (category framesDir : String) :
    (titleFrames (mkTitle vf category) framesDir).length = 90 ∧
    (factFrames 0 vf framesDir).length = 150 * vf.length ∧
    (allFrames vf category framesDir).length = 90 + 150 * vf.length ∧
    90 = 3 * 30 ∧ 150 = 5 * 30 := by
  refine ⟨?_, factFrames_length vf framesDir 0, ?_, rfl, rfl⟩
  · simp [titleFrames]
  · simp [allFrames, titleFrames, factFrames_length]

/-! ## C5 — empty/undersized fact lists and the built-in fallback set -/

/-- C5 counterexample: an undersized but non-empty fact list (one fact,

fewer than the five built-in defaults) is NOT substituted — the pipeline
keeps it as-is, contradicting the claim that every empty *or undersized*
list is replaced by the constant set. -/
theorem c5_counterexample :
    ([JFact.str "x"] : List JFact).length < defaultFacts.length ∧
    validFactsOpt (some [JFact.str "x"]) = [JFact.str "x"] ∧
    validFactsOpt (some [JFact.str "x"]) ≠ defaultFacts := by
  refine ⟨by decide, rfl, by decide⟩

/-- C5 amended: the built-in five-fact fallback set is substituted exactly

when the fact list is absent or empty (a non-empty undersized list is used
as-is); the planner therefore always sees at least one fact — an empty
input yields the 6 = 5 + 1 segments of the substituted set — so no
zero-fact video is planned and the empty list does not crash planning. -/
theorem c5_amended (l : List JFact) :
    validFactsOpt none = defaultFacts ∧
    validFactsOpt (some []) = defaultFacts ∧
    (l ≠ [] → validFactsOpt (some l) = l) ∧
    0 < (validFactsOpt (some l)).length ∧
    defaultFacts.length = 5 ∧
    (segmentList (validFactsOpt (some [])) "science" "frames").length = 6 := by
  have hD : 0 < (validFactsOpt (some l)).length := by
    cases l with
    | nil => decide
    | cons f fs => rw [validFactsOpt_of_ne_nil (by simp)]; simp
  have hE : defaultFacts.length = 5 := by simp [defaultFacts]
  have hF : (segmentList (validFactsOpt (some [])) "science" "frames").length = 6 := by
    simp [segmentList, attachDurations_length, frameFileList, factFrameFiles_length,
      validFactsOpt, defaultFacts]
  exact ⟨rfl, rfl, fun h => validFactsOpt_of_ne_nil h, hD, hE, hF⟩

/-- Witness for C5 (amended) at a concrete input. -/
theorem c5_amended_witness :
    validFactsOpt (some [JFact.str "a"]) = [JFact.str "a"] :=
  (c5_amended [JFact.str "a"]).2.2.1 (by decide)

/-! ## C1 — the "emergency fallback" never yields an artifact (code bug)

The catch block of the second `createFrameBasedVideo` references the
`try`-scoped `const outputDir`, so the moment it runs it raises
`ReferenceError: outputDir is not defined`, its inner catch rethrows the
original error, and the function terminates with an exception instead of
returning `{ videoPath, descriptionPath }` for a placeholder video. -/

/-- C1 (code bug): whenever both assembly strategies fail, or the produced

output file is missing or smaller than 1000 bytes, `createFrameBasedVideo`
throws — no placeholder video is produced and no result object is
returned, for every output path. -/
theorem c1_no_emergency_artifact (outputPath : String) (env : AsmEnv)
    (h : (env.seqEncodeOk = false ∧ env.concatOk = false) ∨
      env.outputSize = none ∨ ∃ n, env.outputSize = some n ∧ n < 1000) :
    ∃ e, createFrameBasedVideo2 outputPath env = Except.error e := by
  obtain ⟨fs, seq, tc, fc, cc, os⟩ := env
  simp only [AsmEnv.seqEncodeOk, AsmEnv.concatOk, AsmEnv.outputSize] at h
  cases fs <;> cases seq <;> cases tc <;> cases fc <;> cases cc <;>
    rcases os with _ | n <;>
      simp_all [createFrameBasedVideo2, assembleBody, encodeStrategies,
        validateOutput, emergencyFallback]

/-- Witness for C1 at a concrete failing input: both strategies fail. -/
theorem c1_no_emergency_artifact_witness :
    ∃ e, createFrameBasedVideo2 "output/video.mp4"
      { fsOk := true, seqEncodeOk := false, titleClipOk := true,
        factClipsOk := true, concatOk := false, outputSize := none }
      = Except.error e :=
  c1_no_emergency_artifact "output/video.mp4"
    { fsOk := true, seqEncodeOk := false, titleClipOk := true,
      factClipsOk := true, concatOk := false, outputSize := none }
    (Or.inl ⟨rfl, rfl⟩)

/-! ## C6 — `createTextFrame` fallback behaviour -/

/-- C6 counterexample: in the enhanced renderer a non-title frame's primary

`convert` uses a navy background but the fallback is darkblue — NOT an
identical background colour; and when the primary `convert` succeeds but
the written file is undersized, the renderer returns `false` without
attempting any fallback even though an image file was written. -/
theorem c6_counterexample :
    (createTextFrame2 "hello" "fact"
        { ensureDirOk := true, convertOk := false, writtenSize := none,
          fallbackOk := true, fallbackWritten := true }).2.map ConvertCmd.bg
      = ["navy", "darkblue"] ∧
    ("navy" : String) ≠ "darkblue" ∧
    createTextFrame2 "hello" "fact"
        { ensureDirOk := true, convertOk := true, writtenSize := some 800,
          fallbackOk := true, fallbackWritten := true }
      = (false, [{ bg := "navy", textColor := some "white", pointsize := some 36,
                   text := some "hello", font := some "Arial" }]) ∧
    frameFileWritten
        { ensureDirOk := true, convertOk := true, writtenSize := some 800,
          fallbackOk := true, fallbackWritten := true } = true := by
  decide

/-- C6 amended: both renderers never throw (every path of the source is

under a `catch`; the embeddings are total) and return a success boolean.
The basic renderer's fallback background (darkblue) matches its primary
and it fails only when both `convert` calls fail.  The enhanced renderer's
fallback is always a textless darkblue frame — matching the primary
background only for `title` frames, the primary of other frames being
navy; success implies a file was really written; and when the primary
`convert` succeeds the renderer makes no fallback attempt, returning
`true` exactly when the written file exists with more than 1000 bytes. -/
theorem c6_amended (text frameType : String) (env1 : Frame1Env) (env : Frame2Env) :
    ((createTextFrame1 text env1).2.map ConvertCmd.bg =
      if env1.convertOk then ["darkblue"] else ["darkblue", "darkblue"]) ∧
    ((createTextFrame1 text env1).1 = false ↔
      env1.convertOk = false ∧ env1.fallbackOk = false) ∧
    (∀ c ∈ (createTextFrame2 text frameType env).2, c.text = none → c.bg = "darkblue") ∧
    (env.ensureDirOk = true →
      ((createTextFrame2 text frameType env).2.head?.map ConvertCmd.bg) =
        some (if frameType = "title" then "darkblue" else "navy")) ∧
    ((createTextFrame2 text frameType env).1 = true → frameFileWritten env = true) ∧
    (env.ensureDirOk = true → env.convertOk = true →
      (createTextFrame2 text frameType env).2.length = 1 ∧
      ((createTextFrame2 text frameType env).1 = true ↔
        ∃ n, env.writtenSize = some n ∧ n > 1000)) := by
  obtain ⟨cOk, fOk⟩ := env1
  obtain ⟨dOk, mOk, wsz, fbOk, fbW⟩ := env
  refine ⟨?_, ?_, ?_, ?_, ?_, ?_⟩ <;>
    cases cOk <;> cases fOk <;> cases dOk <;> cases mOk <;> cases fbOk <;>
      cases fbW <;> rcases wsz with _ | n <;>
        simp_all [createTextFrame1, createTextFrame2, frameFileWritten]

/-- Witness for C6 (amended): the enhanced renderer at a concrete

successful primary run. -/
theorem c6_amended_witness :
    (createTextFrame2 "hi" "title"
      { ensureDirOk := true, convertOk := true, writtenSize := some 2000,
        fallbackOk := true, fallbackWritten := true }).2.length = 1 ∧
    ((createTextFrame2 "hi" "title"
      { ensureDirOk := true, convertOk := true, writtenSize := some 2000,
        fallbackOk := true, fallbackWritten := true }).1 = true ↔
      ∃ n, (some 2000 : Option Nat) = some n ∧ n > 1000) :=
  (c6_amended "hi" "title" { convertOk := true, fallbackOk := true }
    { ensureDirOk := true, convertOk := true, writtenSize := some 2000,
      fallbackOk := true, fallbackWritten := true }).2.2.2.2.2 rfl rfl

/-! ## C7 — `uploadToYouTube` and the (absent) size/placeholder check -/

/-- C7 counterexample: a 500-byte artifact (below every minimum-bytes

threshold in the repository, and flagged as the degraded placeholder) at a
`.mp4` path is uploaded anyway: `uploadToYouTube` issues the insert call
and returns the video id, not an `ERROR_`-tagged rejection. -/
theorem c7_counterexample :
    uploadToYouTube "output/video.mp4"
      { authOk := true, fileExists := true, fileSize := 500,
        isDegradedPlaceholder := true, readFileOk := true, channelOk := true,
        insertOk := true, insertId := "abc123", recordWriteOk := true,
        enhanceOk := true, simplifiedOk := true, simplifiedId := "xyz789",
        now := 1700000000000 }
      = { ret := "abc123", uploadAttempts := 1 } ∧ (500 : Nat) < 1000 := by
  decide

/-- C7 amended: `uploadToYouTube` performs no minimum-size or placeholder

check — its outcome is independent of the artifact's size and
degraded-placeholder status; it rejects without attempting an upload only
for a missing file or a non-video extension, and every outcome is either
an upload id or a string-tagged `ERROR_<REASON>_<timestamp>` code (the
function never throws: the outer catch converts every escaped exception
into `ERROR_SETUP_FAILED`). -/
theorem c7_amended (videoPath : String) (env : UploadEnv) :
    (∀ sz b, uploadToYouTube videoPath
        { env with fileSize := sz, isDegradedPlaceholder := b }
      = uploadToYouTube videoPath env) ∧
    (env.authOk = true → env.fileExists = false →
      uploadToYouTube videoPath env =
        { ret := errCode "FILE_NOT_FOUND" env.now, uploadAttempts := 0 }) ∧
    (env.authOk = true → env.fileExists = true → env.readFileOk = true →
      jsExtension videoPath = "txt" →
      uploadToYouTube videoPath env =
        { ret := errCode "TEXT_FILE" env.now, uploadAttempts := 0 }) ∧
    (env.authOk = true → env.fileExists = true →
      jsExtension videoPath ≠ "mp4" → jsExtension videoPath ≠ "mov" →
      jsExtension videoPath ≠ "avi" → jsExtension videoPath ≠ "txt" →
      uploadToYouTube videoPath env =
        { ret := errCode "INVALID_VIDEO" env.now, uploadAttempts := 0 }) ∧
    ((uploadToYouTube videoPath env).ret = env.insertId ∨
      (uploadToYouTube videoPath env).ret = env.simplifiedId ∨
      ∃ reason, (uploadToYouTube videoPath env).ret = errCode reason env.now) := by
  refine ⟨fun sz b => rfl, ?_, ?_, ?_, ?_⟩
  · intro h1 h2
    simp [uploadToYouTube, h1, h2]
  · intro h1 h2 h3 h4
    simp [uploadToYouTube, h1, h2, h3, h4]
  · intro h1 h2 h4 h5 h6 h7
    simp [uploadToYouTube, h1, h2, h4, h5, h6, h7]
  · simp only [uploadToYouTube]
    split_ifs <;>
      first
      | exact Or.inl rfl
      | exact Or.inr (Or.inl rfl)
      | exact Or.inr (Or.inr ⟨_, rfl⟩)

/-- Witness for C7 (amended): a missing file is rejected without any

upload attempt. -/
theorem c7_amended_witness :
    uploadToYouTube "output/video.mp4"
      { authOk := true, fileExists := false, fileSize := 0,
        isDegradedPlaceholder := false, readFileOk := true, channelOk := true,
        insertOk := true, insertId := "abc123", recordWriteOk := true,
        enhanceOk := true, simplifiedOk := true, simplifiedId := "xyz789",
        now := 42 }
      = { ret := errCode "FILE_NOT_FOUND" 42, uploadAttempts := 0 } :=
  (c7_amended "output/video.mp4"
    { authOk := true, fileExists := false, fileSize := 0,
      isDegradedPlaceholder := false, readFileOk := true, channelOk := true,
      insertOk := true, insertId := "abc123", recordWriteOk := true,
      enhanceOk := true, simplifiedOk := true, simplifiedId := "xyz789",
      now := 42 }).2.1 rfl rfl

/-! ## C8 — silent-clip substitution on synthesis failure -/

theorem generateSpeech_ok (text : String) (env : SpeechEnv)
    (hsil : env.silentOk = true) :
    ∃ w, generateSpeech text env = .ok w ∧
      (env.espeakOk = false →
        w = { kind := .silent, durationSeconds := some 5, format := "wav",
              spokenText := none }) := by
  obtain ⟨esp, wav, conv, sil⟩ := env
  cases esp <;> cases wav <;> cases conv <;> simp_all [generateSpeech]

theorem narrateFacts_ok (audioDir : String) (envs : Nat → SpeechEnv)
    (hsil : ∀ i, (envs i).silentOk = true) :
    ∀ i fs, ∃ l, narrateFacts audioDir envs i fs = .ok l ∧
      l.length = fs.length ∧
      ∀ j e, l.get? j = some e → e.plannedDuration = 6 ∧
        ((envs (i + j + 1)).espeakOk = false →
          e.write = { kind := .silent, durationSeconds := some 5,
                      format := "wav", spokenText := none }) := by
  intro i fs
  induction fs generalizing i with
  | nil => exact ⟨[], rfl, rfl, fun j e h => by cases j <;> simp at h⟩
  | cons f rest ih =>
    obtain ⟨w, hw, hwsil⟩ := generateSpeech_ok
      (f.hook ++ " " ++ f.fact ++ " " ++ f.wow) (envs (i + 1)) (hsil (i + 1))
    obtain ⟨l, hl, hlen, hprop⟩ := ih (i + 1)
    refine ⟨{ file := audioDir ++ "/fact_" ++ toString i ++ ".wav",
              plannedDuration := 6, write := w } :: l, ?_, by simp [hlen], ?_⟩
    · simp only [narrateFacts]
      rw [hw, hl]
      rfl
    intro j e hj
    cases j with
    | zero =>
      simp at hj
      subst hj
      exact ⟨rfl, hwsil⟩
    | succ j =>
      simp only [List.get?_cons_succ] at hj
      have := hprop j e hj
      have harith : i + 1 + j + 1 = i + (j + 1) + 1 := by omega
      rw [harith] at this
      exact this

/-- C8 counterexample: with espeak failing for every segment, the narration

pipeline writes silent clips of fixed five-second duration — for the title
segment the planned duration recorded in the clip list is 3 and for a fact
segment 6, but the silent clip written is always 5 seconds long, not the
segment's planned duration. -/
theorem c8_counterexample :
    generateVoiceNarration
        { title := "T", facts := [{ hook := "h", fact := "f", wow := "w" }] }
        "audio"
        (fun _ => { espeakOk := false, wavExists := false, convertOk := false,
                    silentOk := true })
      = [ { file := "audio/title.wav", plannedDuration := 3,
            write := { kind := .silent, durationSeconds := some 5,
                       format := "wav", spokenText := none } },
          { file := "audio/fact_0.wav", plannedDuration := 6,
            write := { kind := .silent, durationSeconds := some 5,
                       format := "wav", spokenText := none } } ] ∧
    (5 : Nat) ≠ 3 ∧ (5 : Nat) ≠ 6 := by
  decide

/-- C8 amended: when synthesis fails for a segment, `generateSpeech`

substitutes a silent clip of FIXED five-second duration (not the segment's
planned duration — the clip list records 3 s for the title and 6 s per
fact); provided that the silent-clip ffmpeg command itself succeeds, the
clip list stays one-to-one with the segment list (title plus one entry per
fact) instead of the pipeline aborting. -/
theorem c8_amended (content : NarrationContent) (audioDir : String)
    (envs : Nat → SpeechEnv) (hsil : ∀ i, (envs i).silentOk = true) :
    (generateVoiceNarration content audioDir envs).length
        = 1 + content.facts.length ∧
    ∀ i e, (generateVoiceNarration content audioDir envs).get? i = some e →
      e.plannedDuration = (if i = 0 then 3 else 6) ∧
      ((envs i).espeakOk = false →
        e.write = { kind := .silent, durationSeconds := some 5,
                    format := "wav", spokenText := none }) := by
  obtain ⟨tw, htw, htwsil⟩ := generateSpeech_ok
    ("Welcome to our amazing facts video: " ++ content.title) (envs 0) (hsil 0)
  obtain ⟨l, hl, hlen, hprop⟩ := narrateFacts_ok audioDir envs hsil 0 content.facts
  have hrun : generateVoiceNarration content audioDir envs =
      { file := audioDir ++ "/title.wav", plannedDuration := 3, write := tw } :: l := by
    simp only [generateVoiceNarration]
    rw [htw, hl]
    rfl
  rw [hrun]
  refine ⟨by simp [hlen]; omega, ?_⟩
  intro i e hi
  cases i with
  | zero =>
    simp at hi
    subst hi
    exact ⟨rfl, htwsil⟩
  | succ i =>
    simp only [List.get?_cons_succ] at hi
    have := hprop i e hi
    simpa using this

/-- Witness for C8 (amended) at a concrete one-fact input. -/
theorem c8_amended_witness :
    (generateVoiceNarration
        { title := "T", facts := [{ hook := "h", fact := "f", wow := "w" }] }
        "audio"
        (fun _ => { espeakOk := false, wavExists := false, convertOk := false,
                    silentOk := true })).length = 2 :=
  (c8_amended
    { title := "T", facts := [{ hook := "h", fact := "f", wow := "w" }] }
    "audio"
    (fun _ => { espeakOk := false, wavExists := false, convertOk := false,
                silentOk := true })
    (fun _ => rfl)).1

/-! ## C9 — word wrapping: split/trim/token infrastructure -/

theorem splitCharList_ne_nil (sep : Char) (l : List Char) :
    splitCharList sep l ≠ [] := by
  induction l with
  | nil => simp [splitCharList]
  | cons c cs ih =>
    simp only [splitCharList]
    split
    · simp
    · cases h : splitCharList sep cs with
      | nil => exact absurd h ih
      | cons t ts => simp [h]

theorem splitCharList_append_sep (sep : Char) (a b : List Char) :
    splitCharList sep (a ++ sep :: b) =
      splitCharList sep a ++ splitCharList sep b := by
  induction a with
  | nil => simp [splitCharList]
  | cons c cs ih =>
    by_cases hc : c = sep
    · subst hc
      simp [splitCharList, ih]
    · have hne := splitCharList_ne_nil sep cs
      simp only [List.cons_append, splitCharList, if_neg hc, List.append_eq]
      rw [ih]
      cases h : splitCharList sep cs with
      | nil => exact absurd h hne
      | cons t ts => simp [h]

theorem splitCharList_no_sep (sep : Char) (w : List Char)
    (h : ∀ c ∈ w, c ≠ sep) : splitCharList sep w = [w] := by
  induction w with
  | nil => rfl
  | cons c cs ih =>
    have hc : c ≠ sep := h c (by simp)
    have ih' := ih fun x hx => h x (by simp [hx])
    simp [splitCharList, hc, ih']

theorem tokensL_append_sep (a b : List Char) :
    tokensL (a ++ ' ' :: b) = tokensL a ++ tokensL b := by
  simp [tokensL, splitCharList_append_sep]

theorem tokensL_space_cons (l : List Char) : tokensL (' ' :: l) = tokensL l := by
  have h := tokensL_append_sep [] l
  simp only [List.nil_append] at h
  rw [h]
  simp [tokensL, splitCharList]

theorem tokensL_append_space (l : List Char) : tokensL (l ++ [' ']) = tokensL l := by
  have h := tokensL_append_sep l []
  simpa [tokensL, splitCharList] using h

theorem tokensL_dropWhile (l : List Char)
    (h : ∀ c ∈ l, jsWhitespace c = true → c = ' ') :
    tokensL (l.dropWhile jsWhitespace) = tokensL l := by
  induction l with
  | nil => rfl
  | cons c cs ih =>
    by_cases hws : jsWhitespace c = true
    · have hc : c = ' ' := h c (by simp) hws
      subst hc
      rw [List.dropWhile_cons_of_pos hws,
        ih fun x hx hxw => h x (by simp [hx]) hxw, tokensL_space_cons]
    · rw [List.dropWhile_cons_of_neg (by simpa using hws)]

theorem tokensL_trimRight (l : List Char)
    (h : ∀ c ∈ l, jsWhitespace c = true → c = ' ') :
    tokensL ((l.reverse.dropWhile jsWhitespace).reverse) = tokensL l := by
  induction l using List.reverseRecOn with
  | nil => rfl
  | append_singleton l c ih =>
    by_cases hws : jsWhitespace c = true
    · have hc : c = ' ' := h c (by simp) hws
      subst hc
      have hrev : (l ++ [' ']).reverse = ' ' :: l.reverse := by simp
      rw [hrev, List.dropWhile_cons_of_pos (by simp [jsWhitespace]),
        ih fun x hx hxw => h x (by simp [hx]) hxw, tokensL_append_space]
    · have hrev : (l ++ [c]).reverse = c :: l.reverse := by simp
      rw [hrev, List.dropWhile_cons_of_neg (by simpa using hws)]
      simp

theorem tokensL_trim (l : List Char)
    (h : ∀ c ∈ l, jsWhitespace c = true → c = ' ') :
    tokensL (((l.dropWhile jsWhitespace).reverse.dropWhile jsWhitespace).reverse)
      = tokensL l := by
  have h' : ∀ c ∈ l.dropWhile jsWhitespace, jsWhitespace c = true → c = ' ' :=
    fun c hc => h c ((List.dropWhile_suffix _).sublist.mem hc)
  rw [tokensL_trimRight _ h', tokensL_dropWhile _ h]

theorem data_eq_nil_iff (w : String) : w.data = [] ↔ w = "" := by
  cases w with
  | mk wl =>
    constructor
    · intro h
      simp only at h
      subst h
      rfl
    · intro h
      have h2 := congrArg String.data h
      simpa using h2

theorem lineTokens_mk (l : List Char) :
    lineTokens ⟨l⟩ = (tokensL l).map fun cs => (⟨cs⟩ : String) := by
  simp only [lineTokens, jsSplit, tokensL, List.filter_map]
  congr 1
  apply List.filter_congr
  intro cs _
  have hiff : ((⟨cs⟩ : String) ≠ "") ↔ cs ≠ [] := by
    constructor
    · intro hne hnil
      subst hnil
      exact hne rfl
    · intro hne hmk
      exact hne (by simpa using congrArg String.data hmk)
  simp [Function.comp, hiff]

theorem lineTokens_jsTrim (s : String)
    (h : ∀ c ∈ s.data, jsWhitespace c = true → c = ' ') :
    lineTokens (jsTrim s) = lineTokens s := by
  cases s with
  | mk l =>
    show lineTokens
      ⟨((l.dropWhile jsWhitespace).reverse.dropWhile jsWhitespace).reverse⟩
        = lineTokens ⟨l⟩
    rw [lineTokens_mk, lineTokens_mk, tokensL_trim l h]

theorem string_length_zero {s : String} (h : s.length = 0) : s = "" := by
  cases s with
  | mk l =>
    cases l with
    | nil => rfl
    | cons c cs => simp [String.length] at h

theorem length_jsTrim_le (s : String) : (jsTrim s).length ≤ s.length := by
  cases s with
  | mk l =>
    have h1 : ((l.dropWhile jsWhitespace).reverse.dropWhile jsWhitespace).length
        ≤ (l.dropWhile jsWhitespace).reverse.length :=
      (List.dropWhile_suffix _).sublist.length_le
    have h2 : (l.dropWhile jsWhitespace).length ≤ l.length :=
      (List.dropWhile_suffix _).sublist.length_le
    simp only [jsTrim, String.length, List.length_reverse] at h1 ⊢
    omega

theorem trimAux_append_space (l : List Char) :
    (((l ++ [' ']).dropWhile jsWhitespace).reverse.dropWhile jsWhitespace).reverse
      = ((l.dropWhile jsWhitespace).reverse.dropWhile jsWhitespace).reverse := by
  rw [List.dropWhile_append]
  by_cases he : (l.dropWhile jsWhitespace).isEmpty
  · rw [if_pos he]
    rw [List.isEmpty_iff] at he
    rw [he]
    simp [jsWhitespace]
  · rw [if_neg he]
    rw [List.isEmpty_iff] at he
    have : ((l.dropWhile jsWhitespace) ++ [' ']).reverse
        = ' ' :: (l.dropWhile jsWhitespace).reverse := by simp
    rw [this, List.dropWhile_cons_of_pos (by simp [jsWhitespace])]

theorem jsTrim_append_space (s : String) : jsTrim (s ++ " ") = jsTrim s := by
  cases s with
  | mk l =>
    have hd : ((⟨l⟩ : String) ++ " ").data = l ++ [' '] := by
      simp [String.data_append]
    apply String.ext
    show (jsTrim (⟨l⟩ ++ " ")).data = _
    simp only [jsTrim, hd]
    exact trimAux_append_space l

theorem tokensL_word_space (wl : List Char)
    (hw : ∀ c ∈ wl, jsWhitespace c = false) :
    tokensL (wl ++ [' ']) = if wl = [] then [] else [wl] := by
  rw [tokensL_append_space]
  have hns : ∀ c ∈ wl, c ≠ ' ' := by
    intro c hc heq
    have := hw c hc
    rw [heq] at this
    simp [jsWhitespace] at this
  rw [tokensL, splitCharList_no_sep ' ' wl hns]
  by_cases hwl : wl = []
  · subst hwl; simp
  · simp [hwl]

theorem string_empty_append (s : String) : "" ++ s = s := by
  apply String.ext
  simp [String.data_append]

theorem lineTokens_word_space (w : String)
    (hw : ∀ c ∈ w.data, jsWhitespace c = false) :
    lineTokens (w ++ " ") = if w = "" then [] else [w] := by
  have heq : w ++ " " = ⟨w.data ++ [' ']⟩ := by
    apply String.ext
    simp [String.data_append]
  rw [heq, lineTokens_mk, tokensL_word_space w.data hw]
  by_cases hw0 : w = ""
  · rw [if_pos ((data_eq_nil_iff w).2 hw0), if_pos hw0]
    rfl
  · rw [if_neg (fun h => hw0 ((data_eq_nil_iff w).1 h)), if_neg hw0]
    rfl

theorem lineTokens_extend (cur w : String)
    (hcur : cur.data = [] ∨ ∃ d, cur.data = d ++ [' '])
    (hw : ∀ c ∈ w.data, jsWhitespace c = false) :
    lineTokens (cur ++ w ++ " ")
      = lineTokens cur ++ (if w = "" then [] else [w]) := by
  rcases hcur with h0 | ⟨d, hd⟩
  · have hcur' : cur = "" := (data_eq_nil_iff cur).1 h0
    subst hcur'
    rw [string_empty_append, lineTokens_word_space w hw]
    have h1 : lineTokens "" = [] := rfl
    rw [h1, List.nil_append]
  · have heq : cur ++ w ++ " " = ⟨d ++ ' ' :: (w.data ++ [' '])⟩ := by
      apply String.ext
      simp [String.data_append, hd]
    have hcureq : cur = ⟨d ++ [' ']⟩ := by
      apply String.ext
      simpa using hd
    rw [heq, lineTokens_mk, tokensL_append_sep, List.map_append]
    congr 1
    · rw [hcureq, lineTokens_mk, tokensL_append_space]
    · rw [tokensL_word_space w.data hw]
      by_cases hw0 : w = ""
      · rw [if_pos ((data_eq_nil_iff w).2 hw0), if_pos hw0]
        rfl
      · rw [if_neg (fun h => hw0 ((data_eq_nil_iff w).1 h)), if_neg hw0]
        rfl

/-! ### The wrap loop invariants -/

theorem wrap_fold_lengths (maxLength : Nat) :
    ∀ (ws lines : List String) (cur : String),
      (∀ w ∈ ws, w.length ≤ maxLength) →
      (∀ l ∈ lines, l.length ≤ maxLength) →
      (jsTrim cur).length ≤ maxLength →
      (∀ l ∈ (ws.foldl (wrapStep maxLength) (lines, cur)).1,
        l.length ≤ maxLength) ∧
      (jsTrim (ws.foldl (wrapStep maxLength) (lines, cur)).2).length
        ≤ maxLength := by
  intro ws
  induction ws with
  | nil => exact fun lines cur _ hl hc => ⟨hl, hc⟩
  | cons w rest ih =>
    intro lines cur hws hl hc
    have hw : w.length ≤ maxLength := hws w (by simp)
    have hrest : ∀ x ∈ rest, x.length ≤ maxLength :=
      fun x hx => hws x (by simp [hx])
    rw [List.foldl_cons]
    by_cases hcond : (cur ++ w).length > maxLength ∧ cur.length > 0
    · have hstep : wrapStep maxLength (lines, cur) w =
          (lines ++ [jsTrim cur], w ++ " ") := by
        simp only [wrapStep]
        rw [if_pos hcond]
      rw [hstep]
      apply ih _ _ hrest
      · intro l hlmem
        rcases List.mem_append.mp hlmem with h1 | h2
        · exact hl l h1
        · rw [List.mem_singleton.mp h2]
          exact hc
      · rw [jsTrim_append_space]
        exact le_trans (length_jsTrim_le w) hw
    · have hstep : wrapStep maxLength (lines, cur) w =
          (lines, cur ++ w ++ " ") := by
        simp only [wrapStep]
        rw [if_neg hcond]
      rw [hstep]
      apply ih _ _ hrest hl
      have hle : (cur ++ w).length ≤ maxLength := by
        rcases not_and_or.mp hcond with hA | hB
        · exact le_of_not_lt hA
        · have hz : cur.length = 0 := by omega
          rw [String.length_append]
          omega
      rw [jsTrim_append_space]
      exact le_trans (length_jsTrim_le (cur ++ w)) hle

theorem wrap_fold_tokens (maxLength : Nat) :
    ∀ (ws lines : List String) (cur : String),
      (∀ w ∈ ws, ∀ c ∈ w.data, jsWhitespace c = false) →
      (cur.data = [] ∨ ∃ d, cur.data = d ++ [' ']) →
      (∀ c ∈ cur.data, jsWhitespace c = true → c = ' ') →
      ((ws.foldl (wrapStep maxLength) (lines, cur)).2.data = [] ∨
        ∃ d, (ws.foldl (wrapStep maxLength) (lines, cur)).2.data = d ++ [' ']) ∧
      (∀ c ∈ (ws.foldl (wrapStep maxLength) (lines, cur)).2.data,
        jsWhitespace c = true → c = ' ') ∧
      ((ws.foldl (wrapStep maxLength) (lines, cur)).1.flatMap lineTokens ++
          lineTokens (ws.foldl (wrapStep maxLength) (lines, cur)).2
        = lines.flatMap lineTokens ++ lineTokens cur
            ++ ws.filter (· ≠ "")) := by
  intro ws
  induction ws with
  | nil => exact fun lines cur _ hsh hsp => ⟨hsh, hsp, by simp⟩
  | cons w rest ih =>
    intro lines cur hws hsh hsp
    have hw : ∀ c ∈ w.data, jsWhitespace c = false := hws w (by simp)
    have hrest : ∀ x ∈ rest, ∀ c ∈ x.data, jsWhitespace c = false :=
      fun x hx => hws x (by simp [hx])
    rw [List.foldl_cons]
    by_cases hcond : (cur ++ w).length > maxLength ∧ cur.length > 0
    · have hstep : wrapStep maxLength (lines, cur) w =
          (lines ++ [jsTrim cur], w ++ " ") := by
        simp only [wrapStep]
        rw [if_pos hcond]
      rw [hstep]
      have hsh' : (w ++ " ").data = [] ∨ ∃ d, (w ++ " ").data = d ++ [' '] := by
        right
        exact ⟨w.data, by simp [String.data_append]⟩
      have hsp' : ∀ c ∈ (w ++ " ").data, jsWhitespace c = true → c = ' ' := by
        intro c hc hcw
        have hc2 : c ∈ w.data ++ [' '] := by
          simpa [String.data_append] using hc
        rcases List.mem_append.mp hc2 with h1 | h2
        · rw [hw c h1] at hcw
          exact absurd hcw (by simp)
        · simpa using h2
      obtain ⟨rsh, rsp, req⟩ := ih (lines ++ [jsTrim cur]) (w ++ " ") hrest hsh' hsp'
      refine ⟨rsh, rsp, ?_⟩
      rw [req, List.flatMap_append]
      simp only [List.flatMap_cons, List.flatMap_nil, List.append_nil]
      rw [lineTokens_jsTrim cur hsp, lineTokens_word_space w hw]
      by_cases hw0 : w = ""
      · simp [hw0, List.filter_cons]
      · simp [hw0, List.filter_cons, List.append_assoc]
    · have hstep : wrapStep maxLength (lines, cur) w =
          (lines, cur ++ w ++ " ") := by
        simp only [wrapStep]
        rw [if_neg hcond]
      rw [hstep]
      have hsh' : (cur ++ w ++ " ").data = [] ∨
          ∃ d, (cur ++ w ++ " ").data = d ++ [' '] := by
        right
        exact ⟨(cur ++ w).data, by simp [String.data_append]⟩
      have hsp' : ∀ c ∈ (cur ++ w ++ " ").data, jsWhitespace c = true → c = ' ' := by
        intro c hc hcw
        have hc2 : c ∈ (cur.data ++ w.data) ++ [' '] := by
          simpa [String.data_append] using hc
        rcases List.mem_append.mp hc2 with h1 | h2
        · rcases List.mem_append.mp h1 with h3 | h4
          · exact hsp c h3 hcw
          · rw [hw c h4] at hcw
            exact absurd hcw (by simp)
        · simpa using h2
      obtain ⟨rsh, rsp, req⟩ := ih lines (cur ++ w ++ " ") hrest hsh' hsp'
      refine ⟨rsh, rsp, ?_⟩
      rw [req, lineTokens_extend cur w hsh hw]
      by_cases hw0 : w = ""
      · simp [hw0, List.filter_cons]
      · simp [hw0, List.filter_cons, List.append_assoc]

/-! ### C9 proper -/

/-- C9 counterexample: the word `"ab\t"` (length 3, under every threshold)

has its trailing tab stripped by the line `trim`, so the wrapped output is
`"ab"` — the input's single word does not appear in the output, refuting
the round-trip part of the claim for words carrying non-space whitespace. -/
theorem c9_counterexample :
    jsSplit "ab\t" ' ' = ["ab\t"] ∧
    ("ab\t" : String).length ≤ 45 ∧
    wrapText "ab\t" 45 = "ab" ∧
    wrapLines (jsSplit "ab\t" ' ') 45 = ["ab"] ∧
    ¬ ("ab\t" ∈ wrapLines (jsSplit "ab\t" ' ') 45) ∧
    (wrapLines (jsSplit "ab\t" ' ') 45).flatMap lineTokens = ["ab"] ∧
    ("ab" : String) ≠ "ab\t" := by
  decide

/-- C9 amended: for every input string whose space-separated words each fit

the threshold AND are free of (non-separator) whitespace characters, every
wrapped line's length is at most the threshold and the wrapped lines
contain exactly the input's words in their original order (the same greedy
algorithm runs with threshold 50 inline in the enhanced `createTextFrame`
and with threshold 45 via `wrapText` in the enhanced fact-frame renderer;
this statement covers every threshold). -/
theorem c9_amended (text : String) (maxLength : Nat)
    (hlen : ∀ w ∈ jsSplit text ' ', w.length ≤ maxLength)
    (hchar : ∀ w ∈ jsSplit text ' ', ∀ c ∈ w.data, jsWhitespace c = false) :
    (∀ line ∈ wrapLines (jsSplit text ' ') maxLength,
      line.length ≤ maxLength) ∧
    (wrapLines (jsSplit text ' ') maxLength).flatMap lineTokens
      = (jsSplit text ' ').filter (· ≠ "") ∧
    wrapText text maxLength
      = String.intercalate "\\n" (wrapLines (jsSplit text ' ') maxLength) := by
  have htrim0 : (jsTrim "").length ≤ maxLength := by
    have h0 : (jsTrim "").length = 0 := rfl
    omega
  obtain ⟨hlines, hcur⟩ := wrap_fold_lengths maxLength (jsSplit text ' ') [] ""
    hlen (by simp) htrim0
  obtain ⟨rsh, rsp, req⟩ := wrap_fold_tokens maxLength (jsSplit text ' ') [] ""
    hchar (Or.inl rfl) (by simp)
  refine ⟨?_, ?_, rfl⟩
  · intro line hline
    simp only [wrapLines] at hline
    split at hline
    · rcases List.mem_append.mp hline with h1 | h2
      · exact hlines line h1
      · rw [List.mem_singleton.mp h2]
        exact hcur
    · exact hlines line hline
  · simp only [wrapLines]
    split
    · rw [List.flatMap_append]
      simp only [List.flatMap_cons, List.flatMap_nil, List.append_nil]
      rw [lineTokens_jsTrim _ rsp]
      simpa using req
    · rename_i hnot
      have h2 : lineTokens
          ((jsSplit text ' ').foldl (wrapStep maxLength) ([], "")).2 = [] := by
        rw [← lineTokens_jsTrim _ rsp]
        have : jsTrim ((jsSplit text ' ').foldl (wrapStep maxLength) ([], "")).2
            = "" := by
          by_contra hne
          exact hnot hne
        rw [this]
        rfl
      have h3 := req
      rw [h2, List.append_nil] at h3
      simpa using h3

/-- Witness for C9 (amended) at a concrete three-word input and

threshold 10: the first wrapped line fits the threshold, and `wrapText`
is the join of the wrapped lines. -/
theorem c9_amended_witness :
    ("honey" : String).length ≤ 10 ∧
    wrapText "honey never spoils" 10
      = String.intercalate "\\n" (wrapLines (jsSplit "honey never spoils" ' ') 10) :=
  ⟨(c9_amended "honey never spoils" 10 (by decide) (by decide)).1 "honey"
      (by decide),
    (c9_amended "honey never spoils" 10 (by decide) (by decide)).2.2⟩

/-! ## C10 — `markFactsAsUsed` database lemmas -/

theorem dbSet_keys (db : FactsDb) (k : String) (l : List DbFact) :
    (dbSet db k l).map Prod.fst = db.map Prod.fst := by
  induction db with
  | nil => rfl
  | cons p rest ih =>
    cases p with
    | mk k0 es0 =>
      by_cases h : k0 = k <;> simp [dbSet, h, ih]

theorem dbLookup_dbSet_self {db : FactsDb} {k : String} {es : List DbFact}
    (h : dbLookup db k = some es) (l : List DbFact) :
    dbLookup (dbSet db k l) k = some l := by
  induction db with
  | nil => simp [dbLookup] at h
  | cons p rest ih =>
    cases p with
    | mk k0 es0 =>
      by_cases hk : k0 = k
      · simp [dbSet, dbLookup, hk]
      · simp only [dbLookup, if_neg hk] at h
        simp [dbSet, dbLookup, hk, ih h]

theorem dbLookup_dbSet_ne {k' k : String} (h : k' ≠ k) (db : FactsDb)
    (l : List DbFact) :
    dbLookup (dbSet db k l) k' = dbLookup db k' := by
  induction db with
  | nil => rfl
  | cons p rest ih =>
    cases p with
    | mk k0 es0 =>
      simp only [dbSet]
      by_cases hk : k0 = k
      · rw [if_pos hk]
        simp only [dbLookup]
        have hne : ¬(k0 = k') := fun hc => h (hc.symm.trans hk)
        rw [if_neg hne, if_neg hne]
      · rw [if_neg hk]
        simp only [dbLookup]
        by_cases hk' : k0 = k'
        · rw [if_pos hk', if_pos hk']
        · rw [if_neg hk', if_neg hk']
          exact ih

theorem markFirst_length (t d now : String) (es : List DbFact) :
    (markFirst t d now es).length = es.length := by
  induction es with
  | nil => rfl
  | cons e es ih =>
    by_cases h : e.text = t ∧ e.dateAdded = d <;> simp [markFirst, h, ih]

theorem markFirst_get? (t d now : String) (es : List DbFact) :
    ∀ i e, es.get? i = some e →
      ∃ e2, (markFirst t d now es).get? i = some e2 ∧
        (e2 = e ∨ (e2 = { e with used := true, usedDate := some now } ∧
          e.text = t ∧ e.dateAdded = d)) := by
  induction es with
  | nil => intro i e h; cases i <;> simp at h
  | cons e0 es ih =>
    intro i e h
    by_cases hm : e0.text = t ∧ e0.dateAdded = d
    · cases i with
      | zero =>
        have he : e0 = e := by simpa using h
        subst he
        refine ⟨{ e0 with used := true, usedDate := some now }, ?_,
          Or.inr ⟨rfl, hm.1, hm.2⟩⟩
        simp only [markFirst, if_pos hm, List.get?_cons_zero]
      | succ i =>
        simp only [List.get?_cons_succ] at h
        refine ⟨e, ?_, Or.inl rfl⟩
        simp only [markFirst, if_pos hm, List.get?_cons_succ]
        exact h
    · cases i with
      | zero =>
        have he : e0 = e := by simpa using h
        subst he
        refine ⟨e0, ?_, Or.inl rfl⟩
        simp only [markFirst, if_neg hm, List.get?_cons_zero]
      | succ i =>
        simp only [List.get?_cons_succ] at h
        obtain ⟨e2, h2, hd⟩ := ih i e h
        refine ⟨e2, ?_, hd⟩
        simp only [markFirst, if_neg hm, List.get?_cons_succ]
        exact h2

theorem markFirst_marks (t d now : String) (es : List DbFact)
    (h : ∃ e ∈ es, e.text = t ∧ e.dateAdded = d) :
    ∃ e2 ∈ markFirst t d now es, e2.text = t ∧ e2.dateAdded = d ∧
      e2.used = true ∧ e2.usedDate = some now := by
  induction es with
  | nil => simp at h
  | cons e0 es ih =>
    by_cases hm : e0.text = t ∧ e0.dateAdded = d
    · refine ⟨{ e0 with used := true, usedDate := some now },
        by simp [markFirst, hm], ?_⟩
      simpa using ⟨hm.1, hm.2⟩
    · obtain ⟨e, he, hp1, hp2⟩ := h
      rcases List.mem_cons.mp he with h0 | hmem
      · exact absurd ⟨h0 ▸ hp1, h0 ▸ hp2⟩ hm
      · obtain ⟨e2, h2, hp⟩ := ih ⟨e, hmem, hp1, hp2⟩
        exact ⟨e2, by simp [markFirst, hm]; exact Or.inr h2, hp⟩

theorem markFirst_preserves_props (t d now t' d' : String) (es : List DbFact)
    (h : ∃ e ∈ es, e.text = t' ∧ e.dateAdded = d' ∧ e.used = true ∧
      e.usedDate = some now) :
    ∃ e2 ∈ markFirst t d now es, e2.text = t' ∧ e2.dateAdded = d' ∧
      e2.used = true ∧ e2.usedDate = some now := by
  induction es with
  | nil => simp at h
  | cons e0 es ih =>
    obtain ⟨e, he, hp1, hp2, hp3, hp4⟩ := h
    by_cases hm : e0.text = t ∧ e0.dateAdded = d
    · rcases List.mem_cons.mp he with h0 | hmem
      · subst h0
        refine ⟨{ e with used := true, usedDate := some now },
          by simp [markFirst, hm], ?_⟩
        simpa using ⟨hp1, hp2⟩
      · exact ⟨e, by simp [markFirst, hm]; exact Or.inr hmem, hp1, hp2, hp3, hp4⟩
    · rcases List.mem_cons.mp he with h0 | hmem
      · subst h0
        exact ⟨e, by simp [markFirst, hm], hp1, hp2, hp3, hp4⟩
      · obtain ⟨e2, h2, hp⟩ := ih ⟨e, hmem, hp1, hp2, hp3, hp4⟩
        exact ⟨e2, by simp [markFirst, hm]; exact Or.inr h2, hp⟩

theorem markFirst_preserves_match (t d now t' d' : String) (es : List DbFact)
    (h : ∃ e ∈ es, e.text = t' ∧ e.dateAdded = d') :
    ∃ e2 ∈ markFirst t d now es, e2.text = t' ∧ e2.dateAdded = d' := by
  induction es with
  | nil => simp at h
  | cons e0 es ih =>
    obtain ⟨e, he, hp1, hp2⟩ := h
    by_cases hm : e0.text = t ∧ e0.dateAdded = d
    · rcases List.mem_cons.mp he with h0 | hmem
      · subst h0
        exact ⟨{ e with used := true, usedDate := some now },
          by simp [markFirst, hm], by simpa using ⟨hp1, hp2⟩⟩
      · exact ⟨e, by simp [markFirst, hm]; exact Or.inr hmem, hp1, hp2⟩
    · rcases List.mem_cons.mp he with h0 | hmem
      · subst h0
        exact ⟨e, by simp [markFirst, hm], hp1, hp2⟩
      · obtain ⟨e2, h2, hp⟩ := ih ⟨e, hmem, hp1, hp2⟩
        exact ⟨e2, by simp [markFirst, hm]; exact Or.inr h2, hp⟩

/-- The combined invariant of the `facts.forEach` fold: with every incoming

category present, the fold succeeds and (1) keeps the category keys, (2)
evolves every entry in place — unchanged, or marked used with its other
fields intact because some incoming fact matches it, (3) leaves categories
no fact names untouched, (4)/(5) preserves marked entries and text/date
matches, and (6) marks an entry for every incoming fact that has a match. -/
theorem markFold_props (now : String) :
    ∀ (facts : List UsedFact) (db : FactsDb),
      (∀ f ∈ facts, (dbLookup db f.category).isSome) →
      ∃ db2, facts.foldlM (markStep now) db = some db2 ∧
        db2.map Prod.fst = db.map Prod.fst ∧
        (∀ k es, dbLookup db k = some es →
          ∃ es2, dbLookup db2 k = some es2 ∧ es2.length = es.length ∧
            ∀ i e e2, es.get? i = some e → es2.get? i = some e2 →
              e2 = e ∨
                (e2.text = e.text ∧ e2.category = e.category ∧
                 e2.dateAdded = e.dateAdded ∧
                 e2.verificationScore = e.verificationScore ∧
                 e2.used = true ∧ e2.usedDate = some now ∧
                 ∃ f ∈ facts, f.category = k ∧ f.text = e.text ∧
                   f.dateAdded = e.dateAdded)) ∧
        (∀ k, (∀ f ∈ facts, f.category ≠ k) →
          dbLookup db2 k = dbLookup db k) ∧
        (∀ k t d, (∃ es e, dbLookup db k = some es ∧ e ∈ es ∧ e.text = t ∧
            e.dateAdded = d ∧ e.used = true ∧ e.usedDate = some now) →
          ∃ es e, dbLookup db2 k = some es ∧ e ∈ es ∧ e.text = t ∧
            e.dateAdded = d ∧ e.used = true ∧ e.usedDate = some now) ∧
        (∀ k t d, (∃ es e, dbLookup db k = some es ∧ e ∈ es ∧ e.text = t ∧
            e.dateAdded = d) →
          ∃ es e, dbLookup db2 k = some es ∧ e ∈ es ∧ e.text = t ∧
            e.dateAdded = d) ∧
        (∀ f ∈ facts, ∀ es, dbLookup db f.category = some es →
          (∃ e ∈ es, e.text = f.text ∧ e.dateAdded = f.dateAdded) →
          ∃ es2 e2, dbLookup db2 f.category = some es2 ∧ e2 ∈ es2 ∧
            e2.text = f.text ∧ e2.dateAdded = f.dateAdded ∧
            e2.used = true ∧ e2.usedDate = some now) := by
  intro facts
  induction facts with
  | nil =>
    intro db _
    refine ⟨db, rfl, rfl, ?_, fun k _ => rfl, fun k t d h => h, fun k t d h => h,
      by simp⟩
    intro k es h
    refine ⟨es, h, rfl, ?_⟩
    intro i e e2 h1 h2
    rw [h1] at h2
    exact Or.inl (Option.some.inj h2).symm
  | cons f rest ih =>
    intro db hcat
    obtain ⟨es, hes⟩ := Option.isSome_iff_exists.mp (hcat f (by simp))
    have hstep : markStep now db f = some
        (dbSet db f.category (markFirst f.text f.dateAdded now es)) := by
      simp [markStep, hes]
    have hfold : (f :: rest).foldlM (markStep now) db =
        rest.foldlM (markStep now)
          (dbSet db f.category (markFirst f.text f.dateAdded now es)) := by
      rw [List.foldlM_cons, hstep]
      rfl
    have hlook1 : ∀ k, dbLookup
        (dbSet db f.category (markFirst f.text f.dateAdded now es)) k =
        if k = f.category then some (markFirst f.text f.dateAdded now es)
        else dbLookup db k := by
      intro k
      by_cases hk : k = f.category
      · rw [if_pos hk, hk, dbLookup_dbSet_self hes]
      · rw [if_neg hk, dbLookup_dbSet_ne hk]
    have hcat1 : ∀ g ∈ rest, (dbLookup
        (dbSet db f.category (markFirst f.text f.dateAdded now es))
          g.category).isSome := by
      intro g hg
      rw [hlook1]
      by_cases hk : g.category = f.category
      · rw [if_pos hk]
        rfl
      · rw [if_neg hk]
        exact hcat g (by simp [hg])
    obtain ⟨db2, hdb2, hkeys, hevolve, huntouched, hmarked, hmatch, hpos⟩ :=
      ih (dbSet db f.category (markFirst f.text f.dateAdded now es)) hcat1
    refine ⟨db2, by rw [hfold]; exact hdb2, ?_, ?_, ?_, ?_, ?_, ?_⟩
    · rw [hkeys, dbSet_keys]
    · -- (2) entry-wise evolution
      intro k es0 hes0
      by_cases hk : k = f.category
      · subst hk
        have hes0' : es0 = es := by
          rw [hes] at hes0
          exact (Option.some.inj hes0).symm
        subst hes0'
        obtain ⟨es2, hes2, hlen2, hev2⟩ := hevolve f.category
          (markFirst f.text f.dateAdded now es0)
          (by rw [hlook1]; simp)
        refine ⟨es2, hes2, by rw [hlen2, markFirst_length], ?_⟩
        intro i e e2 hie hie2
        obtain ⟨e1, hie1, hd1⟩ := markFirst_get? f.text f.dateAdded now es0 i e hie
        have hd2 := hev2 i e1 e2 hie1 hie2
        rcases hd1 with rfl | ⟨he1, hft, hfd⟩
        · rcases hd2 with h | ⟨m1, m2, m3, m4, m5, m6, g, hg, hgc, hgt, hgd⟩
          · exact Or.inl h
          · exact Or.inr ⟨m1, m2, m3, m4, m5, m6, g, by simp [hg], hgc, hgt, hgd⟩
        · subst he1
          rcases hd2 with rfl | ⟨m1, m2, m3, m4, m5, m6, g, hg, hgc, hgt, hgd⟩
          · refine Or.inr ⟨rfl, rfl, rfl, rfl, rfl, rfl, f, by simp, rfl,
              hft.symm, hfd.symm⟩
          · refine Or.inr ⟨m1, m2, m3, m4, m5, m6, g, by simp [hg], hgc, ?_, ?_⟩
            · exact hgt
            · exact hgd
      · obtain ⟨es2, hes2, hlen2, hev2⟩ := hevolve k es0
          (by rw [hlook1, if_neg hk]; exact hes0)
        refine ⟨es2, hes2, hlen2, ?_⟩
        intro i e e2 h1 h2
        rcases hev2 i e e2 h1 h2 with h | ⟨m1, m2, m3, m4, m5, m6, g, hg, hgc, hgt, hgd⟩
        · exact Or.inl h
        · exact Or.inr ⟨m1, m2, m3, m4, m5, m6, g, by simp [hg], hgc, hgt, hgd⟩
    · -- (3) untouched categories
      intro k hkf
      rw [huntouched k (fun g hg => hkf g (by simp [hg])), hlook1,
        if_neg (fun hc : k = f.category => hkf f (by simp) hc.symm)]
    · -- (4) marked entries persist
      intro k t d hM
      apply hmarked
      obtain ⟨esM, eM, hMl, hMm, hMp1, hMp2, hMp3, hMp4⟩ := hM
      by_cases hk : k = f.category
      · subst hk
        have hesM : esM = es := by
          rw [hes] at hMl
          exact (Option.some.inj hMl).symm
        subst hesM
        obtain ⟨e2, h2m, h2p⟩ := markFirst_preserves_props f.text f.dateAdded
          now t d esM ⟨eM, hMm, hMp1, hMp2, hMp3, hMp4⟩
        exact ⟨markFirst f.text f.dateAdded now esM, e2,
          by rw [hlook1]; simp, h2m, h2p⟩
      · exact ⟨esM, eM, by rw [hlook1, if_neg hk]; exact hMl, hMm, hMp1, hMp2,
          hMp3, hMp4⟩
    · -- (5) text/date matches persist
      intro k t d hM
      apply hmatch
      obtain ⟨esM, eM, hMl, hMm, hMp1, hMp2⟩ := hM
      by_cases hk : k = f.category
      · subst hk
        have hesM : esM = es := by
          rw [hes] at hMl
          exact (Option.some.inj hMl).symm
        subst hesM
        obtain ⟨e2, h2m, h2p⟩ := markFirst_preserves_match f.text f.dateAdded
          now t d esM ⟨eM, hMm, hMp1, hMp2⟩
        exact ⟨markFirst f.text f.dateAdded now esM, e2,
          by rw [hlook1]; simp, h2m, h2p⟩
      · exact ⟨esM, eM, by rw [hlook1, if_neg hk]; exact hMl, hMm, hMp1, hMp2⟩
    · -- (6) every matched incoming fact ends up marked
      intro g hg es0 hes0 hmatch0
      rcases List.mem_cons.mp hg with rfl | hgrest
      · have hes0' : es0 = es := by
          rw [hes] at hes0
          exact (Option.some.inj hes0).symm
        subst hes0'
        obtain ⟨e2, h2m, h2p1, h2p2, h2p3, h2p4⟩ :=
          markFirst_marks g.text g.dateAdded now es0 hmatch0
        obtain ⟨esF, eF, hFl, hFm, hFp1, hFp2, hFp3, hFp4⟩ :=
          hmarked g.category g.text g.dateAdded
            ⟨markFirst g.text g.dateAdded now es0, e2,
              by rw [hlook1]; simp, h2m, h2p1, h2p2, h2p3, h2p4⟩
        exact ⟨esF, eF, hFl, hFm, hFp1, hFp2, hFp3, hFp4⟩
      · obtain ⟨eM, hMm, hMp1, hMp2⟩ := hmatch0
        by_cases hk : g.category = f.category
        · have hes0' : es0 = es := by
            rw [hk] at hes0
            rw [hes] at hes0
            exact (Option.some.inj hes0).symm
          subst hes0'
          obtain ⟨e2, h2m, h2p1, h2p2⟩ := markFirst_preserves_match f.text
            f.dateAdded now g.text g.dateAdded es0 ⟨eM, hMm, hMp1, hMp2⟩
          exact hpos g hgrest (markFirst f.text f.dateAdded now es0)
            (by rw [hlook1, if_pos hk]) ⟨e2, h2m, h2p1, h2p2⟩
        · exact hpos g hgrest es0 (by rw [hlook1, if_neg hk]; exact hes0)
            ⟨eM, hMm, hMp1, hMp2⟩

/-- C10 counterexample: the facts list holds fact A, which matches the

single "science" entry (same text and dateAdded), and fact B, whose
category "history" is absent from the database.  Processing B makes
`database.categories['history'].findIndex` throw a `TypeError`, the outer
catch swallows it, and the database file is never rewritten: the result is
the original database with A's matching entry still `used = false` —
contradicting the claim that matched entries get `used = true`. -/
theorem c10_counterexample :
    markFactsAsUsed
        [{ text := "Honey never spoils.", category := "science",
           dateAdded := "D1" },
         { text := "x", category := "history", dateAdded := "D2" }]
        [("science",
          [{ text := "Honey never spoils.", category := "science",
             verificationScore := 90, dateAdded := "D1", used := false,
             usedDate := none }])]
        "2025-02-02T00:00:00.000Z"
      = [("science",
          [{ text := "Honey never spoils.", category := "science",
             verificationScore := 90, dateAdded := "D1", used := false,
             usedDate := none }])] ∧
    dbLookup
        [("science",
          [{ text := "Honey never spoils.", category := "science",
             verificationScore := 90, dateAdded := "D1", used := false,
             usedDate := none }])] "history" = none ∧
    dbLookup
        [("science",
          [{ text := "Honey never spoils.", category := "science",
             verificationScore := 90, dateAdded := "D1", used := false,
             usedDate := none }])] "science"
      = some [{ text := "Honey never spoils.", category := "science",
                verificationScore := 90, dateAdded := "D1", used := false,
                usedDate := none }] := by
  refine ⟨by decide, by decide, by decide⟩

/-- C10 amended: provided every incoming fact's category exists in the

database, `markFactsAsUsed` sets `used = true` and `usedDate` on the first
database entry matching each fact's text and dateAdded in that fact's
category; every entry is otherwise evolved in place with its other fields
unchanged, entries matching no fact are untouched, categories named by no
fact keep their exact lists, and the database's category keys are
preserved.  (If some fact's category is absent, the thrown `TypeError`
aborts the write and the persisted database is entirely unchanged, even
for earlier matching facts — see the counterexample.) -/
theorem c10_amended (facts : List UsedFact) (db : FactsDb) (now : String)
    (hcat : ∀ f ∈ facts, (dbLookup db f.category).isSome) :
    (markFactsAsUsed facts db now).map Prod.fst = db.map Prod.fst ∧
    (∀ k es, dbLookup db k = some es →
      ∃ es2, dbLookup (markFactsAsUsed facts db now) k = some es2 ∧
        es2.length = es.length ∧
        ∀ i e e2, es.get? i = some e → es2.get? i = some e2 →
          e2 = e ∨
            (e2.text = e.text ∧ e2.category = e.category ∧
             e2.dateAdded = e.dateAdded ∧
             e2.verificationScore = e.verificationScore ∧
             e2.used = true ∧ e2.usedDate = some now ∧
             ∃ f ∈ facts, f.category = k ∧ f.text = e.text ∧
               f.dateAdded = e.dateAdded)) ∧
    (∀ k, (∀ f ∈ facts, f.category ≠ k) →
      dbLookup (markFactsAsUsed facts db now) k = dbLookup db k) ∧
    (∀ f ∈ facts, ∀ es, dbLookup db f.category = some es →
      (∃ e ∈ es, e.text = f.text ∧ e.dateAdded = f.dateAdded) →
      ∃ es2 e2, dbLookup (markFactsAsUsed facts db now) f.category = some es2 ∧
        e2 ∈ es2 ∧ e2.text = f.text ∧ e2.dateAdded = f.dateAdded ∧
        e2.used = true ∧ e2.usedDate = some now) := by
  obtain ⟨db2, hdb2, hkeys, hevolve, huntouched, _, _, hpos⟩ :=
    markFold_props now facts db hcat
  have hres : markFactsAsUsed facts db now = db2 := by
    simp [markFactsAsUsed, hdb2]
  rw [hres]
  exact ⟨hkeys, hevolve, huntouched, hpos⟩

/-- Witness for C10 (amended) at a concrete one-fact, one-category

database. -/
theorem c10_amended_witness :
    (markFactsAsUsed
        [{ text := "Honey never spoils.", category := "science",
           dateAdded := "D1" }]
        [("science",
          [{ text := "Honey never spoils.", category := "science",
             verificationScore := 90, dateAdded := "D1", used := false,
             usedDate := none }])]
        "2025-02-02T00:00:00.000Z").map Prod.fst
      = (([("science",
          [{ text := "Honey never spoils.", category := "science",
             verificationScore := 90, dateAdded := "D1", used := false,
             usedDate := none }])] : FactsDb)).map Prod.fst :=
  (c10_amended
    [{ text := "Honey never spoils.", category := "science",
       dateAdded := "D1" }]
    [("science",
      [{ text := "Honey never spoils.", category := "science",
         verificationScore := 90, dateAdded := "D1", used := false,
         usedDate := none }])]
    "2025-02-02T00:00:00.000Z" (by decide)).1

end VideoPipeline
